import Mathlib

/-!
# Memory card game engine — formal model

A shallow embedding of the game-state engine of `script.js` (a browser
memory-matching card game).  DOM rendering calls (`renderCards`,
`updateScore`'s text updates, modal/CSS-class handling) are pure
presentation and are modelled only where they touch engine state
(`showScreen` clears the timer interval).  JavaScript's single-threaded
event loop is modelled explicitly: a `World` holds the global `gameState`
object together with the set of live `setInterval` ids, the queue of
scheduled one-shot `setTimeout` callbacks, and the list of emitted
engine events.  A thrown JavaScript `TypeError` (a property access on
`undefined`) is modelled by returning `some JsError.typeError` next to
the (already mutated) world, since a JS exception does not roll back
prior assignments.
-/

/-- A card object (`script.js` lines 104–109):
`{id: index, value: flower, flipped: false, matched: false}`. -/
structure Card where
  id : Nat
  value : String
  flipped : Bool
  matched : Bool
deriving DecidableEq, Repr

/-- One difficulty preset `{rows, cols, pairs}` (lines 4–8). -/
structure Config where
  rows : Nat
  cols : Nat
  pairs : Nat
deriving DecidableEq, Repr

/-- Models `gameConfig.difficulties[d]` — the JS object lookup yields `undefined`
(`none`) for a name that is not a preset (lines 3–8). -/
def difficulties (d : String) : Option Config :=
  if d = "easy" then some ⟨4, 4, 8⟩
  else if d = "medium" then some ⟨4, 5, 10⟩
  else if d = "hard" then some ⟨5, 6, 15⟩
  else none

/-- Models `gameConfig.flowers` (line 9): the fixed symbol alphabet, 15 emoji. -/
def flowers : List String :=
  ["🌸", "🌺", "🌹", "🌻", "🌼", "💐", "🌷", "🌿", "🥀", "🪷", "🌾", "🍀", "🌱", "☘️", "🎋"]

/-- The global `gameState` object (lines 13–23).  `timerInterval` is the
id of the live `setInterval` handle, or `none` for `null`. -/
structure GameState where
  cards : List Card
  flippedCards : List Nat
  matchedPairs : Nat
  moveCount : Nat
  gameActive : Bool
  timer : Nat
  timerInterval : Option Nat
  currentDifficulty : String
  hints : Nat
deriving DecidableEq, Repr

/-- The initial value of `gameState` (lines 13–23). -/
def initialGameState : GameState :=
  { cards := [], flippedCards := [], matchedPairs := 0, moveCount := 0,
    gameActive := false, timer := 0, timerInterval := none,
    currentDifficulty := "easy", hints := 3 }

/-- Errors.  The code itself only ever throws `typeError` (a property
access on `undefined`).  `invalidDifficulty` and `invalidCardId` are the
structured error kinds named by the specification; they are present so
that statements about the spec's error contract can be written, and the
model never produces them. -/
inductive JsError where
  | typeError
  | invalidDifficulty
  | invalidCardId
deriving DecidableEq, Repr

/-- Engine-relevant observable events: the win screen being filled in
with `{elapsedSeconds, moveCount, score}` (lines 247–249), and a hint
highlighting a pair of card ids (lines 283–291). -/
inductive Event where
  | won (elapsedSeconds moveCount : Nat) (score : Int)
  | hintShown (a b : Nat)
deriving DecidableEq, Repr

/-- A scheduled one-shot `setTimeout` callback.
`flipBack` (lines 194–199) captures the two card *objects*; since card
objects sit inside the session's `cards` array and are never replaced
within a session, a captured object is identified by the session
generation current at scheduling time plus its array index.
`winScreen` (line 190) captures nothing: `showWinScreen` reads the
global `gameState` when it fires. -/
inductive Pending where
  | flipBack (gen firstId secondId : Nat)
  | winScreen
deriving DecidableEq, Repr

/-- The JavaScript world: the object currently bound to the global
`gameState` variable, a generation counter that increments whenever the
variable is rebound to a fresh object (line 63), the scheduled one-shot
timeouts, the live interval ids, and the emitted events. -/
structure World where
  gameState : GameState
  gen : Nat
  pending : List Pending
  intervals : List Nat
  nextIntervalId : Nat
  events : List Event
deriving DecidableEq, Repr

/-- The world before any command: the initial global state, no
scheduled callbacks, no live intervals. -/
def initialWorld : World :=
  { gameState := initialGameState, gen := 0, pending := [], intervals := [],
    nextIntervalId := 1, events := [] }

/-- Models `clearInterval(id)`: deregisters a live interval; no-op on `null`
or a dead id. -/
def clearIntervalOpt (w : World) (i : Option Nat) : World :=
  match i with
  | none => w
  | some n => { w with intervals := w.intervals.filter (fun m => m != n) }

/-- Models `showScreen(screenId)` (lines 44–55), engine-relevant part only:
when leaving the game screen with a live `timerInterval`, the interval
is cleared and the field nulled (lines 51–54).  CSS class toggling is
presentation and is omitted. -/
def showScreen (screenId : String) (w : World) : World :=
  if screenId = "game-screen" then w
  else
    match w.gameState.timerInterval with
    | none => w
    | some n =>
      { w with intervals := w.intervals.filter (fun m => m != n),
               gameState := { w.gameState with timerInterval := none } }

/-- Models `startTimer()` (lines 215–227): clear a previous interval if the
*current* `gameState.timerInterval` field holds one, zero the timer and
register a fresh interval whose callback increments the global
`gameState.timer`. -/
def startTimer (w : World) : World :=
  let w :=
    match w.gameState.timerInterval with
    | some n => { w with intervals := w.intervals.filter (fun m => m != n) }
    | none => w
  let w := { w with gameState := { w.gameState with timer := 0 } }
  let i := w.nextIntervalId
  { w with intervals := w.intervals ++ [i], nextIntervalId := i + 1,
           gameState := { w.gameState with timerInterval := some i } }

/-- In-place swap `[array[i], array[j]] = [array[j], array[i]]`
(line 122); a no-op when an index is out of range. -/
def swapAt (l : List α) (i j : Nat) : List α :=
  match l[i]?, l[j]? with
  | some a, some b => (l.set i b).set j a
  | _, _ => l

/-- The Fisher–Yates loop of `shuffleArray` (lines 120–123): for `i`
from `array.length - 1` down to `1`, swap positions `i` and `j` where
`j = Math.floor(Math.random() * (i + 1))`.  The random source is
injected as `rand : Nat → Nat`, indexed by the loop counter; `% (i+1)`
models the draw being uniform in `[0, i]`. -/
def shuffleGo (rand : Nat → Nat) : Nat → List α → List α
  | 0, l => l
  | i + 1, l => shuffleGo rand i (swapAt l (i + 1) (rand (i + 1) % (i + 2)))

/-- Models `shuffleArray(array)` (lines 119–125).  The JS function permutes the
*argument array in place* and returns that same array; in this value
model the result is therefore both the return value and the contents of
the caller's array after the call. -/
def shuffleArray (array : List α) (rand : Nat → Nat) : List α :=
  shuffleGo rand (array.length - 1) array

/-- Models `cardValues.map((value, index) => ({id: index, value, flipped: false,
matched: false}))` (lines 104–109), with a running index. -/
def mkCards : Nat → List String → List Card
  | _, [] => []
  | i, v :: vs => ⟨i, v, false, false⟩ :: mkCards (i + 1) vs

/-- Models `createCards(config)` (lines 89–116), engine-relevant part: take the
first `config.pairs` flowers, duplicate, shuffle, and build the card
objects.  Grid layout and rendering are presentation. -/
def createCards (config : Config) (rand : Nat → Nat) (w : World) : World :=
  let selectedFlowers := flowers.take config.pairs
  let cardValues := selectedFlowers ++ selectedFlowers
  let cardValues := shuffleArray cardValues rand
  { w with gameState := { w.gameState with cards := mkCards 0 cardValues } }

/-- Models `startGame(difficulty)` (lines 58–86).  Line 59's write of
`currentDifficulty` hits the old object, which line 63 then discards.
The wholesale reassignment of `gameState` nulls the `timerInterval`
field *without clearing the running interval*, so the old interval
handle is orphaned but stays live.  For a non-preset name the config
lookup (line 60) yields `undefined` and `createCards` then dereferences
`config.cols` (line 94): a `TypeError` is thrown *after* the global
state has already been replaced. -/
def startGame (difficulty : String) (rand : Nat → Nat) (w : World) :
    World × Option JsError :=
  let config? := difficulties difficulty
  let w := { w with
    gameState := { cards := [], flippedCards := [], matchedPairs := 0,
                   moveCount := 0, gameActive := true, timer := 0,
                   timerInterval := none, currentDifficulty := difficulty,
                   hints := 3 },
    gen := w.gen + 1 }
  match config? with
  | none => (w, some JsError.typeError)
  | some config =>
    let w := createCards config rand w
    let w := showScreen ("game-screen") w
    let w := startTimer w
    (w, none)

/-- Update card object at array index `i` (the JS code mutates the
object obtained from `gameState.cards[i]` in place). -/
def modifyAt (cards : List Card) (i : Nat) (f : Card → Card) : List Card :=
  match cards[i]? with
  | none => cards
  | some c => cards.set i (f c)

/-- Models `handleCardClick(cardId)` (lines 156–204).  An out-of-range id makes
`gameState.cards[cardId]` `undefined` and the `card.flipped` read on
line 162 throws.  On the second card of an attempt, `moveCount` is
incremented and `updateScore()` dereferences the difficulty config
(lines 210–211) before the symbols are compared.  A match marks both
cards and, when it is the final pair, schedules `showWinScreen` via
`setTimeout(..., 500)` (line 190); a mismatch schedules the 1000 ms
flip-back closure over the two card objects (lines 194–199). -/
def handleCardClick (cardId : Nat) (w : World) : World × Option JsError :=
  if w.gameState.gameActive = false then (w, none)
  else
    match w.gameState.cards[cardId]? with
    | none => (w, some JsError.typeError)
    | some card =>
      if card.flipped = true ∨ card.matched = true ∨
          2 ≤ w.gameState.flippedCards.length then (w, none)
      else
        let gs := { w.gameState with
          cards := modifyAt w.gameState.cards cardId
            (fun c => { c with flipped := true }),
          flippedCards := w.gameState.flippedCards ++ [cardId] }
        if gs.flippedCards.length = 2 then
          let gs := { gs with moveCount := gs.moveCount + 1 }
          match difficulties gs.currentDifficulty with
          | none => ({ w with gameState := gs }, some JsError.typeError)
          | some config =>
            match gs.flippedCards with
            | [firstId, secondId] =>
              match gs.cards[firstId]?, gs.cards[secondId]? with
              | some firstCard, some secondCard =>
                if firstCard.value = secondCard.value then
                  let gs := { gs with
                    cards := modifyAt
                      (modifyAt gs.cards firstId (fun c => { c with matched := true }))
                      secondId (fun c => { c with matched := true }),
                    matchedPairs := gs.matchedPairs + 1,
                    flippedCards := [] }
                  if gs.matchedPairs = config.pairs then
                    ({ w with gameState := gs,
                              pending := w.pending ++ [Pending.winScreen] }, none)
                  else ({ w with gameState := gs }, none)
                else
                  ({ w with gameState := gs,
                            pending := w.pending ++
                              [Pending.flipBack w.gen firstId secondId] }, none)
              | _, _ => ({ w with gameState := gs }, some JsError.typeError)
            | _ => ({ w with gameState := gs }, none)
        else ({ w with gameState := gs }, none)

/-- The `{easy: 100, medium: 200, hard: 300}[difficulty]` lookup of
lines 238–242. -/
def difficultyBonus? (d : String) : Option Int :=
  if d = "easy" then some 100
  else if d = "medium" then some 200
  else if d = "hard" then some 300
  else none

/-- Models `showWinScreen()` (lines 230–252), run when its timeout fires:
clear the interval (the field itself is not nulled here), set
`gameActive = false`, compute the score, fill in the win screen (the
`won` event) and switch to the win screen, whose `showScreen` call nulls
the stale `timerInterval` field.  With a non-preset difficulty the
`config.pairs` read on line 237 would throw; the `difficultyBonus?`
fallback `getD 0` is unreachable because that lookup succeeds exactly
when the config lookup does. -/
def showWinScreen (w : World) : World × Option JsError :=
  let w := clearIntervalOpt w w.gameState.timerInterval
  let w := { w with gameState := { w.gameState with gameActive := false } }
  match difficulties w.gameState.currentDifficulty with
  | none => (w, some JsError.typeError)
  | some config =>
    let timeBonus : Int := max 0 (300 - (w.gameState.timer : Int))
    let moveBonus : Int :=
      max 0 ((config.pairs : Int) * 10 - (w.gameState.moveCount : Int))
    let difficultyBonus : Int :=
      (difficultyBonus? w.gameState.currentDifficulty).getD 0
    let totalScore := timeBonus + moveBonus + difficultyBonus
    let w := { w with events := w.events ++
      [Event.won w.gameState.timer w.gameState.moveCount totalScore] }
    (showScreen ("win-screen") w, none)

/-- One firing of a live interval's callback (lines 223–226): the
callback increments the *global* `gameState.timer`, whichever session
object that variable currently holds.  Fires only while the id is
still registered. -/
def fireTick (intervalId : Nat) (w : World) : World :=
  if intervalId ∈ w.intervals then
    { w with gameState := { w.gameState with timer := w.gameState.timer + 1 } }
  else w

/-- The 1000 ms flip-back timeout firing (lines 194–199).  The closure
writes `firstCard.flipped = false; secondCard.flipped = false` through
its captured object references — which only touch the current session's
`cards` array when the session generation still matches — and then
assigns `gameState.flippedCards = []` through the *global* variable,
which always hits the current session. -/
def fireFlipBack (gen firstId secondId : Nat) (w : World) : World :=
  let w := { w with pending := w.pending.erase (Pending.flipBack gen firstId secondId) }
  if gen = w.gen then
    { w with gameState := { w.gameState with
        cards := modifyAt
          (modifyAt w.gameState.cards firstId (fun c => { c with flipped := false }))
          secondId (fun c => { c with flipped := false }),
        flippedCards := [] } }
  else
    { w with gameState := { w.gameState with flippedCards := [] } }

/-- The win-screen timeout firing (line 190): remove it from the queue
and run `showWinScreen` on the current global state. -/
def fireWinScreen (w : World) : World × Option JsError :=
  showWinScreen { w with pending := w.pending.erase Pending.winScreen }

/-- The `flowerGroups[card.value].push(card.id)` accumulation of
lines 264–270: append the id to the group of an existing key, else add
a new key at the end (JS objects iterate string keys in insertion
order). -/
def insertCard (groups : List (String × List Nat)) (c : Card) :
    List (String × List Nat) :=
  match groups with
  | [] => [(c.value, [c.id])]
  | (v, ids) :: rest =>
    if v = c.value then (v, ids ++ [c.id]) :: rest
    else (v, ids) :: insertCard rest c

/-- The whole `flowerGroups` object after the `forEach` of
lines 265–270, as an insertion-ordered association list. -/
def groupByValue (l : List Card) : List (String × List Nat) :=
  l.foldl insertCard []

/-- The `for (const flower in flowerGroups)` search of lines 273–279:
the first group (in key insertion order) with at least two members,
cut to its first two ids by `slice(0, 2)`. -/
def hintPairOf (l : List Card) : Option (List Nat) :=
  ((groupByValue l).find? (fun g => 2 ≤ g.2.length)).map (fun g => g.2.take 2)

/-- Models `hint()` (lines 255–295).  The CSS `hint` class toggling and its
1000 ms removal timeout are presentation; the engine-visible effects
are the highlighted pair (the `hintShown` event) and the decrement of
`gameState.hints`, both of which happen only when a pair was found. -/
def hint (w : World) : World :=
  if w.gameState.hints = 0 ∨ w.gameState.gameActive = false then w
  else
    let unmatchedCards :=
      w.gameState.cards.filter (fun c => !c.matched && !c.flipped)
    if unmatchedCards.length < 2 then w
    else
      match hintPairOf unmatchedCards with
      | some (a :: b :: _) =>
        { w with events := w.events ++ [Event.hintShown a b],
                 gameState := { w.gameState with hints := w.gameState.hints - 1 } }
      | _ => w

/-- Models `confirmQuit()` (lines 322–325): hide the modal (presentation) and
switch to the main screen, which stops the timer via `showScreen`
(lines 51–54).  Nothing else in `quitGame`/`confirmQuit` touches
`gameState`. -/
def confirmQuit (w : World) : World :=
  showScreen ("main-screen") w

/-- Models `restartGame()` (lines 298–302) with the confirmation dialog
accepted: `startGame(gameState.currentDifficulty)`. -/
def restartGame (rand : Nat → Nat) (w : World) : World × Option JsError :=
  startGame w.gameState.currentDifficulty rand w

/-! ## Permutation facts about the Fisher–Yates shuffle -/

/-- Writing `x` at position `k` of `xs` while moving the old occupant `b`
to the front is a permutation of putting `x` in front. -/
theorem cons_set_perm : ∀ (xs : List α) (k : Nat) (b x : α),
    xs[k]? = some b → (b :: xs.set k x).Perm (x :: xs) := by
  intro xs
  induction xs with
  | nil => intro k b x h; simp at h
  | cons y ys ih =>
    intro k b x h
    cases k with
    | zero =>
      simp at h
      subst h
      exact List.Perm.swap x y ys
    | succ k =>
      simp at h
      have h1 : List.Perm (b :: y :: ys.set k x) (y :: b :: ys.set k x) :=
        List.Perm.swap y b (ys.set k x)
      have h2 : List.Perm (y :: b :: ys.set k x) (y :: x :: ys) :=
        (ih k b x h).cons y
      have h3 : List.Perm (y :: x :: ys) (x :: y :: ys) := List.Perm.swap x y ys
      exact (h1.trans h2).trans h3

/-- Exchanging the entries at two valid positions permutes the list. -/
theorem set_set_perm : ∀ (l : List α) (i j : Nat) (a b : α),
    l[i]? = some a → l[j]? = some b → ((l.set i b).set j a).Perm l := by
  intro l
  induction l with
  | nil => intro i j a b h; simp at h
  | cons x xs ih =>
    intro i j a b hi hj
    cases i with
    | zero =>
      simp at hi
      subst hi
      cases j with
      | zero =>
        simp at hj
        subst hj
        simp
      | succ j =>
        simp at hj
        simpa using cons_set_perm xs j b x hj
    | succ i =>
      simp at hi
      cases j with
      | zero =>
        simp at hj
        subst hj
        simpa using cons_set_perm xs i a x hi
      | succ j =>
        simp at hj
        simpa using (ih i j a b hi hj).cons x

/-- Swapping two entries with `swapAt` is a permutation. -/
theorem swapAt_perm (l : List α) (i j : Nat) : (swapAt l i j).Perm l := by
  unfold swapAt
  cases hi : l[i]? with
  | none => exact List.Perm.refl l
  | some a =>
    cases hj : l[j]? with
    | none => exact List.Perm.refl l
    | some b => exact set_set_perm l i j a b hi hj

/-- Every pass of the Fisher–Yates loop permutes the list. -/
theorem shuffleGo_perm (rand : Nat → Nat) :
    ∀ (n : Nat) (l : List α), (shuffleGo rand n l).Perm l := by
  intro n
  induction n with
  | zero => intro l; exact List.Perm.refl l
  | succ n ih =>
    intro l
    exact (ih _).trans (swapAt_perm l (n + 1) (rand (n + 1) % (n + 2)))

/-- Fact: `shuffleArray` returns a permutation of its input's original
contents: the multiset of symbols is preserved, for every random
source. -/
theorem shuffleArray_perm (l : List α) (rand : Nat → Nat) :
    (shuffleArray l rand).Perm l :=
  shuffleGo_perm rand (l.length - 1) l

/-! ## Deck construction facts -/

theorem mkCards_length : ∀ (n : Nat) (l : List String),
    (mkCards n l).length = l.length := by
  intro n l
  induction l generalizing n with
  | nil => rfl
  | cons v vs ih => simp [mkCards, ih]

theorem mkCards_getElem? : ∀ (n : Nat) (l : List String) (i : Nat),
    (mkCards n l)[i]? = l[i]?.map (fun v => ⟨n + i, v, false, false⟩) := by
  intro n l
  induction l generalizing n with
  | nil => intro i; simp [mkCards]
  | cons v vs ih =>
    intro i
    cases i with
    | zero => simp [mkCards]
    | succ i =>
      have harith : n + 1 + i = n + (i + 1) := by omega
      simp only [mkCards, List.getElem?_cons_succ, ih (n + 1) i, harith]

theorem mkCards_countP (v : String) : ∀ (n : Nat) (l : List String),
    (mkCards n l).countP (fun c => decide (c.value = v)) =
      l.countP (fun s => decide (s = v)) := by
  intro n l
  induction l generalizing n with
  | nil => rfl
  | cons v vs ih => simp [mkCards, List.countP_cons, ih]

/-- In a duplicate-free list every element is counted once, everything
else zero times. -/
theorem countP_eq_ite_of_nodup [DecidableEq α] :
    ∀ (l : List α) (v : α), l.Nodup →
      l.countP (fun s => decide (s = v)) = if v ∈ l then 1 else 0 := by
  intro l
  induction l with
  | nil => intro v _; simp
  | cons x xs ih =>
    intro v h
    rw [List.nodup_cons] at h
    rw [List.countP_cons, ih v h.2]
    by_cases hx : x = v
    · subst hx
      simp [h.1]
    · simp [hx, Ne.symm hx]

/-- The deck built by a successful `startGame` is the index-tagged
shuffled double of the first `pairs` flowers. -/
theorem startGame_cards (d : String) (cfg : Config) (rand : Nat → Nat)
    (w : World) (h : difficulties d = some cfg) :
    (startGame d rand w).1.gameState.cards =
      mkCards 0 (shuffleArray (flowers.take cfg.pairs ++ flowers.take cfg.pairs) rand) ∧
    (startGame d rand w).2 = none := by
  simp [startGame, h, createCards, showScreen, startTimer]

/-- The three presets select `pairs` distinct flowers. -/
theorem selected_flowers_facts (d : String) (cfg : Config)
    (h : difficulties d = some cfg) :
    (flowers.take cfg.pairs).length = cfg.pairs ∧ (flowers.take cfg.pairs).Nodup := by
  unfold difficulties at h
  split_ifs at h
  · injection h with h; subst h; exact ⟨by decide, by decide⟩
  · injection h with h; subst h; exact ⟨by decide, by decide⟩
  · injection h with h; subst h; exact ⟨by decide, by decide⟩

/-- Claim C7.  For every difficulty preset, after `start` the session's
deck consists of exactly `2*pairCount` cards, the card ids being the
grid positions `0, …, 2*pairCount - 1`, built from exactly `pairCount`
distinct symbols of the fixed flower alphabet with each symbol occurring
on exactly two cards — for every injected random source. -/
theorem startGame_deck_composition (d : String) (cfg : Config) (rand : Nat → Nat)
    (w : World) (h : difficulties d = some cfg) :
    (startGame d rand w).2 = none ∧
    (startGame d rand w).1.gameState.cards.length = 2 * cfg.pairs ∧
    (∀ i : Nat, ((startGame d rand w).1.gameState.cards[i]?).map Card.id =
        if i < 2 * cfg.pairs then some i else none) ∧
    (flowers.take cfg.pairs).length = cfg.pairs ∧
    (flowers.take cfg.pairs).Nodup ∧
    (∀ v : String, (startGame d rand w).1.gameState.cards.countP
        (fun c => decide (c.value = v)) =
      if v ∈ flowers.take cfg.pairs then 2 else 0) := by
  obtain ⟨hcards, herr⟩ := startGame_cards d cfg rand w h
  obtain ⟨hsellen, hselnodup⟩ := selected_flowers_facts d cfg h
  have hshuf : (shuffleArray (flowers.take cfg.pairs ++ flowers.take cfg.pairs)
      rand).Perm (flowers.take cfg.pairs ++ flowers.take cfg.pairs) :=
    shuffleArray_perm _ rand
  have hlen : (shuffleArray (flowers.take cfg.pairs ++ flowers.take cfg.pairs)
      rand).length = 2 * cfg.pairs := by
    rw [hshuf.length_eq, List.length_append, hsellen]; omega
  refine ⟨herr, ?_, ?_, hsellen, hselnodup, ?_⟩
  · rw [hcards, mkCards_length, hlen]
  · intro i
    rw [hcards, mkCards_getElem?]
    by_cases hi : i < 2 * cfg.pairs
    · rw [List.getElem?_eq_getElem (by omega : i < _)]
      simp [hi]
    · rw [List.getElem?_eq_none (by omega : _ ≤ i)]
      simp [hi]
  · intro v
    rw [hcards, mkCards_countP v, hshuf.countP_eq, List.countP_append,
      countP_eq_ite_of_nodup _ v hselnodup]
    by_cases hv : v ∈ flowers.take cfg.pairs <;> simp [hv]

/-- Witness: the deck-composition theorem applied to the easy preset
with the constant-zero random source on the initial world. -/
theorem startGame_deck_composition_witness :
    difficulties ("easy") = some ⟨4, 4, 8⟩ ∧
    ((startGame ("easy") (fun _ => 0) initialWorld).2 = none ∧
     (startGame ("easy") (fun _ => 0) initialWorld).1.gameState.cards.length = 2 * 8 ∧
     (∀ i : Nat,
        ((startGame ("easy") (fun _ => 0) initialWorld).1.gameState.cards[i]?).map Card.id =
          if i < 2 * 8 then some i else none) ∧
     (flowers.take 8).length = 8 ∧
     (flowers.take 8).Nodup ∧
     (∀ v : String,
        (startGame ("easy") (fun _ => 0) initialWorld).1.gameState.cards.countP
          (fun c => decide (c.value = v)) = if v ∈ flowers.take 8 then 2 else 0)) :=
  ⟨rfl, startGame_deck_composition ("easy") ⟨4, 4, 8⟩ (fun _ => 0) initialWorld rfl⟩

/-- Claim C9, amended.  `shuffleArray` returns a permutation of the
sequence of symbols it was given — the multiset of symbols is preserved
for every random source.  (The "works on a copy" half of the original
claim fails: the function shuffles the caller's array in place, see the
accompanying counterexample.) -/
theorem shuffleArray_is_permutation (l : List String) (rand : Nat → Nat) :
    (shuffleArray l rand).Perm l :=
  shuffleArray_perm l rand

/-- Claim C9, counterexample.  `shuffleArray` operates in place: the model
value is precisely the contents of the caller's array after the call
(the JS function returns its own argument after swapping entries inside
it).  With the constant-zero random source the caller's two-element
array holds `["b", "a"]` after the call — not its original contents, so
the input sequence *was* mutated and no working copy was used. -/
theorem shuffleArray_not_pure_on_copy :
    shuffleArray (["a", "b"] : List String) (fun _ => 0) = ["b", "a"] ∧
    (["b", "a"] : List String) ≠ ["a", "b"] :=
  ⟨rfl, by decide⟩

/-! ## `modifyAt` access lemmas -/

theorem modifyAt_getElem?_ne (l : List Card) (i j : Nat) (f : Card → Card)
    (h : i ≠ j) : (modifyAt l j f)[i]? = l[i]? := by
  unfold modifyAt
  cases hj : l[j]? with
  | none => rfl
  | some c => exact List.getElem?_set_ne (Ne.symm h)

theorem modifyAt_getElem?_self (l : List Card) (i : Nat) (f : Card → Card)
    (c : Card) (h : l[i]? = some c) : (modifyAt l i f)[i]? = some (f c) := by
  unfold modifyAt
  rw [h]
  exact List.getElem?_set_self (by
    have := List.getElem?_eq_some_iff.mp h
    exact this.1)

/-! ## Concrete executions (constant-zero random source)

With `randZero` every Fisher–Yates draw picks index 0, so the easy deck
comes out as
`[🌺,🌹,🌻,🌼,💐,🌷,🌿,🌸,🌺,🌹,🌻,🌼,💐,🌷,🌿,🌸]`:
cards 0 and 1 carry different flowers, cards `i` and `i+8` carry the
same flower. -/

def randZero : Nat → Nat := fun _ => 0

/-- An easy game started on the pristine world. -/
def wStarted : World := (startGame ("easy") randZero initialWorld).1

/-- Card 0 revealed. -/
def wOneFlipped : World := (handleCardClick 0 wStarted).1

/-- Cards 0 and 1 revealed: a mismatch, so the 1000 ms flip-back is now
pending and both cards are face-up awaiting it. -/
def wMismatch : World := (handleCardClick 1 wOneFlipped).1

/-- Calling `restartGame()` (confirmed) during the pending flip-back delay. -/
def wRestarted : World := (restartGame randZero wMismatch).1

/-- One card revealed in the restarted session while the old session's
flip-back is still pending. -/
def wNewClick : World := (handleCardClick 5 wRestarted).1

set_option maxRecDepth 8000 in
/-- Claim C1 — the code violates it.  Starting a new session
invalidates nothing: after `restart` during a pending mismatch
flip-back, (a) the old session's 1-second interval is still registered
— `startGame` replaced `gameState` wholesale, losing the old
`timerInterval` handle before `startTimer`'s `clearInterval` check ran
— and its next tick increments the *new* session's `elapsedSeconds`;
(b) the old session's flip-back closure is still queued, and when it
fires it assigns `gameState.flippedCards = []` through the global
variable, wiping the new session's `revealedUnmatchedIds` (here `[5]`)
while leaving card 5 face-up. -/
theorem restart_leaks_old_callbacks :
    wMismatch.pending = [Pending.flipBack 1 0 1] ∧
    wMismatch.gameState.timerInterval = some 1 ∧
    wRestarted.gen = 2 ∧
    wRestarted.intervals = [1, 2] ∧
    wRestarted.pending = [Pending.flipBack 1 0 1] ∧
    wRestarted.gameState.timer = 0 ∧
    (fireTick 1 wRestarted).gameState.timer = 1 ∧
    wNewClick.gameState.flippedCards = [5] ∧
    (fireFlipBack 1 0 1 wNewClick).gameState.flippedCards = [] ∧
    ((fireFlipBack 1 0 1 wNewClick).gameState.cards[5]?).map Card.flipped =
      some true :=
  ⟨rfl, rfl, rfl, rfl, rfl, rfl, rfl, rfl, rfl, rfl⟩

/-- Folding a list of clicks over the world. -/
def clickRun (ids : List Nat) (w : World) : World :=
  ids.foldl (fun w i => (handleCardClick i w).1) w

/-- Matching all eight easy pairs of the `randZero` deck in order. -/
def wAllMatched : World :=
  clickRun [0, 8, 1, 9, 2, 10, 3, 11, 4, 12, 5, 13, 6, 14, 7, 15] wStarted

set_option maxRecDepth 8000 in
/-- Claim C2, counterexample.  At the moment `matchedPairs` reaches the
preset's `pairs` (the final matching pair just resolved), the session
is *not* deactivated, the timer interval is *not* stopped, and no `won`
event has been emitted — `selectCard` merely scheduled `showWinScreen`
to run 500 ms later. -/
theorem win_handling_is_deferred :
    wAllMatched.gameState.matchedPairs = 8 ∧
    wAllMatched.gameState.gameActive = true ∧
    wAllMatched.intervals = [1] ∧
    wAllMatched.gameState.timerInterval = some 1 ∧
    wAllMatched.events = [] ∧
    wAllMatched.pending = [Pending.winScreen] :=
  ⟨rfl, rfl, rfl, rfl, rfl, rfl⟩

/-- Claim C3, counterexample.  Quitting (confirmed) stops the timer but
leaves `gameActive` untouched: nothing on the quit path ever assigns
`gameState.gameActive = false`, so the claim that quit "sets the
session's active flag to false" fails on an active session. -/
theorem quit_leaves_session_active :
    wMismatch.gameState.gameActive = true ∧
    (confirmQuit wMismatch).gameState.gameActive = true ∧
    (confirmQuit wMismatch).gameState.timerInterval = none ∧
    (confirmQuit wMismatch).intervals = [] :=
  ⟨rfl, rfl, rfl, rfl⟩

/-- Claim C3, amended.  A confirmed quit stops the timer (the interval is
deregistered and the `timerInterval` field nulled by `showScreen`) and
leaves everything else — cards, matchedPairCount, moveCount, hints,
events, pending callbacks, *and the active flag* — unaltered. -/
theorem confirmQuit_effects (w : World) :
    (confirmQuit w).gameState.cards = w.gameState.cards ∧
    (confirmQuit w).gameState.matchedPairs = w.gameState.matchedPairs ∧
    (confirmQuit w).gameState.moveCount = w.gameState.moveCount ∧
    (confirmQuit w).gameState.hints = w.gameState.hints ∧
    (confirmQuit w).gameState.gameActive = w.gameState.gameActive ∧
    (confirmQuit w).gameState.timerInterval = none ∧
    (confirmQuit w).intervals =
      (match w.gameState.timerInterval with
       | none => w.intervals
       | some n => w.intervals.filter (fun m => m != n)) ∧
    (confirmQuit w).events = w.events ∧
    (confirmQuit w).pending = w.pending := by
  unfold confirmQuit showScreen
  cases h : w.gameState.timerInterval <;> simp [h]

/-- Claim C4, counterexample.  `selectCard` with an id outside the deck of
an active session *throws*: `gameState.cards[99]` is `undefined` and
line 162 reads `.flipped` on it — a `TypeError`, which is neither the
structured `InvalidCardId` failure nor a silent no-op return. -/
theorem invalid_click_throws :
    (handleCardClick 99 wStarted).2 = some JsError.typeError ∧
    some JsError.typeError ≠ some JsError.invalidCardId ∧
    some JsError.typeError ≠ (none : Option JsError) :=
  ⟨rfl, by decide, by decide⟩

/-- Claim C4, amended.  On an active session, `selectCard` with an id
that is not an index of the cards array throws a `TypeError`; the throw
happens before any assignment, so the session state is not corrupted
(the world is returned unchanged). -/
theorem invalid_click_typeError (w : World) (cardId : Nat)
    (hactive : w.gameState.gameActive = true)
    (hnone : w.gameState.cards[cardId]? = none) :
    handleCardClick cardId w = (w, some JsError.typeError) := by
  simp [handleCardClick, hactive, hnone]

/-- Witness: clicking id 99 in a freshly started easy game. -/
theorem invalid_click_typeError_witness :
    wStarted.gameState.gameActive = true ∧
    wStarted.gameState.cards[99]? = none ∧
    handleCardClick 99 wStarted = (wStarted, some JsError.typeError) :=
  ⟨rfl, rfl, invalid_click_typeError wStarted 99 rfl rfl⟩

/-- Claim C5, counterexample.  `startGame("expert")` does not fail with
`InvalidDifficulty`: it throws a `TypeError` (the `undefined` config is
dereferenced in `createCards`, line 94) — and only after the global
session has already been replaced by a fresh *active* state with an
empty deck. -/
theorem start_unknown_difficulty_throws :
    (startGame ("expert") randZero initialWorld).2 = some JsError.typeError ∧
    some JsError.typeError ≠ some JsError.invalidDifficulty ∧
    (startGame ("expert") randZero initialWorld).1.gameState.gameActive = true ∧
    (startGame ("expert") randZero initialWorld).1.gameState.cards = [] :=
  ⟨rfl, by decide, rfl, rfl⟩

/-- Claim C5, amended.  For every difficulty name outside the presets,
`startGame` first replaces the session wholesale (leaving a fresh
*active* session with an empty deck and the unknown name) and then
throws a `TypeError`; no `InvalidDifficulty` check exists. -/
theorem start_unknown_difficulty (d : String) (rand : Nat → Nat) (w : World)
    (h : difficulties d = none) :
    startGame d rand w =
      ({ w with
          gameState := { cards := [], flippedCards := [], matchedPairs := 0,
                         moveCount := 0, gameActive := true, timer := 0,
                         timerInterval := none, currentDifficulty := d,
                         hints := 3 },
          gen := w.gen + 1 }, some JsError.typeError) := by
  simp [startGame, h]

/-- Witness: starting with the name `expert`. -/
theorem start_unknown_difficulty_witness :
    difficulties ("expert") = none ∧
    startGame ("expert") randZero initialWorld =
      ({ initialWorld with
          gameState := { cards := [], flippedCards := [], matchedPairs := 0,
                         moveCount := 0, gameActive := true, timer := 0,
                         timerInterval := none, currentDifficulty := "expert",
                         hints := 3 },
          gen := initialWorld.gen + 1 }, some JsError.typeError) :=
  ⟨rfl, start_unknown_difficulty ("expert") randZero initialWorld rfl⟩

/-- The specification's score formula, written from its words:
`score = timeBonus + moveBonus + difficultyBonus` with
`timeBonus = max(0, 300 - elapsedSeconds)`,
`moveBonus = max(0, pairCount*10 - moveCount)` and
`difficultyBonus = {easy: 100, medium: 200, hard: 300}[difficulty]`,
all in integer arithmetic. -/
def specScore (difficulty : String) (pairCount elapsedSeconds moveCount : Nat) : Int :=
  max 0 (300 - (elapsedSeconds : Int)) +
    max 0 ((pairCount : Int) * 10 - (moveCount : Int)) +
    (if difficulty = "easy" then 100
     else if difficulty = "medium" then 200
     else if difficulty = "hard" then 300
     else 0)

/-- A difficulty name with a preset is one of the three literals. -/
theorem difficulties_some_names (d : String) (cfg : Config)
    (h : difficulties d = some cfg) :
    d = "easy" ∨ d = "medium" ∨ d = "hard" := by
  unfold difficulties at h
  split_ifs at h with h1 h2 h3
  · exact Or.inl h1
  · exact Or.inr (Or.inl h2)
  · exact Or.inr (Or.inr h3)

/-- Claim C6.  The score computed when the win screen is shown equals
`max(0, 300 - elapsedSeconds) + max(0, pairCount*10 - moveCount) +
difficultyBonus` with bonus 100/200/300 for easy/medium/hard, in
integer arithmetic; the `won` record carries exactly
`{elapsedSeconds, moveCount, score}` as read at that moment.  In
particular, an easy win at `elapsedSeconds = 10`, `moveCount = 8`
scores 462. -/
theorem win_score_formula (w : World) (cfg : Config)
    (hcfg : difficulties w.gameState.currentDifficulty = some cfg) :
    (fireWinScreen w).2 = none ∧
    (fireWinScreen w).1.events = w.events ++
      [Event.won w.gameState.timer w.gameState.moveCount
        (specScore w.gameState.currentDifficulty cfg.pairs
          w.gameState.timer w.gameState.moveCount)] ∧
    specScore ("easy") 8 10 8 = 462 := by
  have hd := difficulties_some_names _ _ hcfg
  refine ⟨?_, ?_, by decide⟩ <;>
  · rcases hd with hd | hd | hd <;> rw [hd] at hcfg <;>
      cases hti : w.gameState.timerInterval <;>
      simp [fireWinScreen, showWinScreen, clearIntervalOpt, showScreen,
        specScore, difficultyBonus?, hcfg, hd, hti]

set_option maxRecDepth 8000 in
/-- Witness: the score-formula theorem applied to the fully matched
easy game (its concrete score there is 300 + 72 + 100 = 472). -/
theorem win_score_formula_witness :
    difficulties wAllMatched.gameState.currentDifficulty = some ⟨4, 4, 8⟩ ∧
    ((fireWinScreen wAllMatched).2 = none ∧
     (fireWinScreen wAllMatched).1.events = wAllMatched.events ++
       [Event.won wAllMatched.gameState.timer wAllMatched.gameState.moveCount
         (specScore wAllMatched.gameState.currentDifficulty 8
           wAllMatched.gameState.timer wAllMatched.gameState.moveCount)] ∧
     specScore ("easy") 8 10 8 = 462) :=
  ⟨rfl, win_score_formula wAllMatched ⟨4, 4, 8⟩ rfl⟩

set_option maxRecDepth 8000 in
/-- Claim C2, amended.  Resolving the final matching pair does *not*
deactivate the session synchronously: `selectCard` marks the pair
matched, leaves `gameActive = true` and the interval running, and
schedules exactly one `showWinScreen` callback.  When that callback
fires, the session is deactivated, the timer interval is cleared (field
nulled, id deregistered), and exactly one `won` event carrying
`{elapsedSeconds, moveCount, score}` — read at firing time — is
appended. -/
theorem final_match_defers_win (w : World) (c1 c2 : Nat) (card1 card2 : Card)
    (cfg : Config) (w' : World) (cfg' : Config) (tid : Nat)
    (hactive : w.gameState.gameActive = true)
    (hflip : w.gameState.flippedCards = [c1])
    (hget2 : w.gameState.cards[c2]? = some card2)
    (hc2flip : card2.flipped = false)
    (hc2match : card2.matched = false)
    (hne : c1 ≠ c2)
    (hget1 : w.gameState.cards[c1]? = some card1)
    (hcfg : difficulties w.gameState.currentDifficulty = some cfg)
    (hval : card1.value = card2.value)
    (hwin : w.gameState.matchedPairs + 1 = cfg.pairs)
    (hcfg' : difficulties w'.gameState.currentDifficulty = some cfg')
    (htid : w'.gameState.timerInterval = some tid) :
    handleCardClick c2 w =
      ({ w with
          gameState := { w.gameState with
            cards := modifyAt (modifyAt (modifyAt w.gameState.cards c2
                (fun c => { c with flipped := true })) c1
                (fun c => { c with matched := true })) c2
                (fun c => { c with matched := true }),
            flippedCards := [],
            matchedPairs := w.gameState.matchedPairs + 1,
            moveCount := w.gameState.moveCount + 1 },
          pending := w.pending ++ [Pending.winScreen] }, none) ∧
    (handleCardClick c2 w).1.gameState.gameActive = true ∧
    (handleCardClick c2 w).1.intervals = w.intervals ∧
    (handleCardClick c2 w).1.events = w.events ∧
    (fireWinScreen w').2 = none ∧
    (fireWinScreen w').1.gameState.gameActive = false ∧
    (fireWinScreen w').1.gameState.timerInterval = none ∧
    (fireWinScreen w').1.pending = w'.pending.erase Pending.winScreen ∧
    tid ∉ (fireWinScreen w').1.intervals ∧
    (∃ s : Int, (fireWinScreen w').1.events =
      w'.events ++ [Event.won w'.gameState.timer w'.gameState.moveCount s]) := by
  have hg1 : (modifyAt w.gameState.cards c2
      (fun c => { c with flipped := true }))[c1]? = some card1 := by
    rw [modifyAt_getElem?_ne _ _ _ _ hne]; exact hget1
  have hg2 : (modifyAt w.gameState.cards c2
      (fun c => { c with flipped := true }))[c2]? =
      some { card2 with flipped := true } :=
    modifyAt_getElem?_self _ _ _ _ hget2
  have hclick : handleCardClick c2 w =
      ({ w with
          gameState := { w.gameState with
            cards := modifyAt (modifyAt (modifyAt w.gameState.cards c2
                (fun c => { c with flipped := true })) c1
                (fun c => { c with matched := true })) c2
                (fun c => { c with matched := true }),
            flippedCards := [],
            matchedPairs := w.gameState.matchedPairs + 1,
            moveCount := w.gameState.moveCount + 1 },
          pending := w.pending ++ [Pending.winScreen] }, none) := by
    simp [handleCardClick, hactive, hget2, hc2flip, hc2match, hflip, hcfg,
      hg1, hg2, hval, hwin]
  have hd := difficulties_some_names _ _ hcfg'
  refine ⟨hclick, by rw [hclick]; exact hactive, by rw [hclick],
    by rw [hclick], ?_, ?_, ?_, ?_, ?_, ?_⟩ <;>
  · rcases hd with hd | hd | hd <;> rw [hd] at hcfg' <;>
      simp [fireWinScreen, showWinScreen, clearIntervalOpt, showScreen,
        difficultyBonus?, hcfg', hd, htid, List.mem_filter]

/-- Seven easy pairs matched and card 7 face-up: one click away from
winning. -/
def wAlmost : World :=
  clickRun [0, 8, 1, 9, 2, 10, 3, 11, 4, 12, 5, 13, 6, 14, 7] wStarted

set_option maxRecDepth 8000 in
/-- Witness: clicking card 15 (the partner of the face-up card 7)
completes the easy game; the win callback then fires on the fully
matched world. -/
theorem final_match_defers_win_witness :
    wAlmost.gameState.gameActive = true ∧
    wAlmost.gameState.flippedCards = [7] ∧
    wAlmost.gameState.cards[15]? = some ⟨15, "🌸", false, false⟩ ∧
    (Card.mk 15 "🌸" false false).flipped = false ∧
    (Card.mk 15 "🌸" false false).matched = false ∧
    (7 : Nat) ≠ 15 ∧
    wAlmost.gameState.cards[7]? = some ⟨7, "🌸", true, false⟩ ∧
    difficulties wAlmost.gameState.currentDifficulty = some ⟨4, 4, 8⟩ ∧
    (Card.mk 7 "🌸" true false).value = (Card.mk 15 "🌸" false false).value ∧
    wAlmost.gameState.matchedPairs + 1 = (Config.mk 4 4 8).pairs ∧
    difficulties wAllMatched.gameState.currentDifficulty = some ⟨4, 4, 8⟩ ∧
    wAllMatched.gameState.timerInterval = some 1 ∧
    (handleCardClick 15 wAlmost =
      ({ wAlmost with
          gameState := { wAlmost.gameState with
            cards := modifyAt (modifyAt (modifyAt wAlmost.gameState.cards 15
                (fun c => { c with flipped := true })) 7
                (fun c => { c with matched := true })) 15
                (fun c => { c with matched := true }),
            flippedCards := [],
            matchedPairs := wAlmost.gameState.matchedPairs + 1,
            moveCount := wAlmost.gameState.moveCount + 1 },
          pending := wAlmost.pending ++ [Pending.winScreen] }, none) ∧
     (handleCardClick 15 wAlmost).1.gameState.gameActive = true ∧
     (handleCardClick 15 wAlmost).1.intervals = wAlmost.intervals ∧
     (handleCardClick 15 wAlmost).1.events = wAlmost.events ∧
     (fireWinScreen wAllMatched).2 = none ∧
     (fireWinScreen wAllMatched).1.gameState.gameActive = false ∧
     (fireWinScreen wAllMatched).1.gameState.timerInterval = none ∧
     (fireWinScreen wAllMatched).1.pending =
       wAllMatched.pending.erase Pending.winScreen ∧
     (1 : Nat) ∉ (fireWinScreen wAllMatched).1.intervals ∧
     (∃ s : Int, (fireWinScreen wAllMatched).1.events =
       wAllMatched.events ++
         [Event.won wAllMatched.gameState.timer
           wAllMatched.gameState.moveCount s])) :=
  ⟨rfl, rfl, rfl, rfl, rfl, by decide, rfl, rfl, rfl, rfl, rfl, rfl,
    final_match_defers_win wAlmost 7 15 ⟨7, "🌸", true, false⟩
      ⟨15, "🌸", false, false⟩ ⟨4, 4, 8⟩ wAllMatched ⟨4, 4, 8⟩ 1
      rfl rfl rfl rfl rfl (by decide) rfl rfl rfl rfl rfl rfl⟩

/-! ## The hint grouping: `flowerGroups` as an ordered association list -/

/-- The keys (flower symbols) of a group list, in order. -/
def keysOf (g : List (String × List Nat)) : List String := g.map Prod.fst

/-- The ids of the cards of `l` carrying symbol `v`, in list order. -/
def idsOf (l : List Card) (v : String) : List Nat :=
  (l.filter (fun c => decide (c.value = v))).map Card.id

/-- The groups of a card list in first-occurrence order, defined
structurally: the head card's symbol collects all its ids, and the
remaining groups come from the cards of other symbols. -/
def groupsOf : List Card → List (String × List Nat)
  | [] => []
  | c :: rest =>
    (c.value, c.id :: idsOf rest c.value) ::
      groupsOf (rest.filter (fun d => decide (d.value ≠ c.value)))
termination_by l => l.length
decreasing_by
  simp only [List.length_cons]
  exact Nat.lt_succ_of_le (List.length_filter_le _ _)

/-- Appending one id to the group of symbol `v`. -/
def extendGroup (v : String) (i : Nat) (g : String × List Nat) :
    String × List Nat :=
  if g.1 = v then (g.1, g.2 ++ [i]) else g

theorem keysOf_append (a b : List (String × List Nat)) :
    keysOf (a ++ b) = keysOf a ++ keysOf b := by
  simp [keysOf]

theorem keysOf_map_extend (v : String) (i : Nat)
    (acc : List (String × List Nat)) :
    keysOf (acc.map (extendGroup v i)) = keysOf acc := by
  induction acc with
  | nil => rfl
  | cons g rest ih =>
    simp only [keysOf, List.map_cons, List.map_map] at ih ⊢
    rw [ih]
    unfold extendGroup
    by_cases h : g.1 = v <;> simp [h]

theorem insertCard_of_not_mem : ∀ (acc : List (String × List Nat)) (c : Card),
    c.value ∉ keysOf acc → insertCard acc c = acc ++ [(c.value, [c.id])] := by
  intro acc c
  induction acc with
  | nil => intro _; rfl
  | cons g rest ih =>
    intro h
    obtain ⟨v, ids⟩ := g
    simp only [keysOf, List.map_cons, List.mem_cons, not_or] at h
    have hv : ¬ v = c.value := fun he => h.1 he.symm
    simp only [insertCard, if_neg hv, List.cons_append]
    rw [ih (by simpa [keysOf] using h.2)]

theorem map_extend_of_not_mem : ∀ (acc : List (String × List Nat))
    (v : String) (i : Nat), v ∉ keysOf acc →
    acc.map (extendGroup v i) = acc := by
  intro acc v i
  induction acc with
  | nil => intro _; rfl
  | cons g rest ih =>
    intro h
    simp only [keysOf, List.map_cons, List.mem_cons, not_or] at h
    simp only [List.map_cons]
    rw [ih (by simpa [keysOf] using h.2)]
    have hv : ¬ g.1 = v := fun he => h.1 he.symm
    unfold extendGroup
    rw [if_neg hv]

theorem insertCard_of_mem : ∀ (acc : List (String × List Nat)) (c : Card),
    (keysOf acc).Nodup → c.value ∈ keysOf acc →
    insertCard acc c = acc.map (extendGroup c.value c.id) := by
  intro acc c
  induction acc with
  | nil => intro _ h; simp [keysOf] at h
  | cons g rest ih =>
    intro hnd hmem
    obtain ⟨v, ids⟩ := g
    simp only [keysOf, List.map_cons, List.nodup_cons] at hnd
    simp only [keysOf, List.map_cons, List.mem_cons] at hmem
    by_cases hv : v = c.value
    · subst hv
      simp only [insertCard, if_pos rfl, List.map_cons]
      rw [map_extend_of_not_mem rest c.value c.id hnd.1]
      unfold extendGroup
      simp
    · have hmem' : c.value ∈ keysOf rest := by
        rcases hmem with h | h
        · exact absurd h.symm hv
        · simpa [keysOf] using h
      simp only [insertCard, if_neg hv, List.map_cons]
      rw [ih hnd.2 hmem']
      unfold extendGroup
      rw [if_neg hv]

theorem idsOf_cons (c : Card) (l : List Card) (v : String) :
    idsOf (c :: l) v = if c.value = v then c.id :: idsOf l v else idsOf l v := by
  by_cases h : c.value = v <;> simp [idsOf, List.filter_cons, h]

theorem filter_val_eq_of_filter_not_mem (l : List Card) (v : String)
    (ks : List String) (hv : v ∉ ks) :
    (l.filter (fun x => decide (x.value ∉ ks))).filter
        (fun x => decide (x.value = v)) =
      l.filter (fun x => decide (x.value = v)) := by
  rw [List.filter_filter]
  apply List.filter_congr
  intro x _
  by_cases hx : x.value = v
  · simp [hx, hv]
  · simp [hx]

theorem idsOf_filter_not_mem (l : List Card) (ks : List String) (v : String)
    (hv : v ∉ ks) :
    idsOf (l.filter (fun x => decide (x.value ∉ ks))) v = idsOf l v := by
  unfold idsOf
  rw [filter_val_eq_of_filter_not_mem l v ks hv]

theorem filter_not_mem_append_singleton (l : List Card) (ks : List String)
    (v : String) :
    l.filter (fun x => decide (x.value ∉ ks ++ [v])) =
      (l.filter (fun x => decide (x.value ∉ ks))).filter
        (fun x => decide (x.value ≠ v)) := by
  rw [List.filter_filter]
  apply List.filter_congr
  intro x _
  by_cases h1 : x.value ∈ ks <;> by_cases h2 : x.value = v <;>
    simp [h1, h2, List.mem_append]

/-- The `forEach`/`push` accumulation is the first-occurrence grouping:
folding `insertCard` over `l` starting from a group list with
duplicate-free keys extends the existing groups in place and appends
the groups of the unseen symbols in first-occurrence order. -/
theorem foldl_insertCard : ∀ (l : List Card) (acc : List (String × List Nat)),
    (keysOf acc).Nodup →
    l.foldl insertCard acc =
      acc.map (fun g => (g.1, g.2 ++ idsOf l g.1)) ++
        groupsOf (l.filter (fun c => decide (c.value ∉ keysOf acc))) := by
  intro l
  induction l with
  | nil =>
    intro acc _
    simp [idsOf, groupsOf]
  | cons c l ih =>
    intro acc hnd
    rw [List.foldl_cons]
    by_cases hmem : c.value ∈ keysOf acc
    · rw [insertCard_of_mem acc c hnd hmem]
      rw [ih _ (by rw [keysOf_map_extend]; exact hnd)]
      rw [keysOf_map_extend]
      rw [List.filter_cons_of_neg (by simp [hmem])]
      rw [List.map_map]
      congr 1
      apply List.map_congr_left
      intro g _
      by_cases hg : g.1 = c.value
      · simp [Function.comp, extendGroup, hg, idsOf_cons]
      · have hg' : ¬ c.value = g.1 := fun he => hg he.symm
        simp [Function.comp, extendGroup, hg, idsOf_cons, hg']
    · rw [insertCard_of_not_mem acc c hmem]
      have hk : keysOf (acc ++ [(c.value, [c.id])]) = keysOf acc ++ [c.value] := by
        simp [keysOf]
      have hnd' : (keysOf (acc ++ [(c.value, [c.id])])).Nodup := by
        rw [hk]
        exact hnd.append (List.nodup_singleton _)
          (fun a ha hb => by simp at hb; subst hb; exact hmem ha)
      rw [ih _ hnd', hk]
      rw [List.filter_cons_of_pos (by simp [hmem])]
      rw [filter_not_mem_append_singleton l (keysOf acc) c.value]
      simp only [groupsOf, List.map_append, List.map_cons, List.map_nil]
      rw [idsOf_filter_not_mem l (keysOf acc) c.value hmem]
      rw [List.append_assoc]
      congr 1
      apply List.map_congr_left
      intro g hg
      have hgk : g.1 ∈ keysOf acc := List.mem_map_of_mem Prod.fst hg
      have hne : ¬ c.value = g.1 := fun he => hmem (he ▸ hgk)
      simp [idsOf_cons, hne]

/-- The `flowerGroups` object equals the structural first-occurrence
grouping. -/
theorem groupByValue_eq_groupsOf (l : List Card) : groupByValue l = groupsOf l := by
  have h := foldl_insertCard l [] (by simp [keysOf])
  simp [keysOf] at h
  simpa [groupByValue] using h

/-- Searching a list is the same as searching the sublist of elements
passing `q`, when failing `q` forces failing `p` and on passing `q` the
predicates `p` and `p'` agree. -/
theorem find?_filter_congr : ∀ (l : List α) (q p p' : α → Bool),
    (∀ x ∈ l, q x = false → p x = false) →
    (∀ x ∈ l, q x = true → p x = p' x) →
    l.find? p = (l.filter q).find? p' := by
  intro l q p p'
  induction l with
  | nil => intro _ _; rfl
  | cons x xs ih =>
    intro h1 h2
    by_cases hq : q x
    · rw [List.filter_cons_of_pos hq]
      by_cases hp : p x
      · rw [List.find?_cons_of_pos _ hp, List.find?_cons_of_pos _
          (by rw [← h2 x (List.mem_cons_self x xs) hq]; exact hp)]
      · have hp' : ¬ p' x := by
          rw [← h2 x (List.mem_cons_self x xs) hq]; exact hp
        rw [List.find?_cons_of_neg _ hp, List.find?_cons_of_neg _ hp']
        exact ih (fun y hy => h1 y (List.mem_cons_of_mem x hy))
          (fun y hy => h2 y (List.mem_cons_of_mem x hy))
    · have hq' : q x = false := by simpa using hq
      rw [List.filter_cons_of_neg (by simp [hq'])]
      rw [List.find?_cons_of_neg _ (by rw [h1 x (List.mem_cons_self x xs) hq']; simp)]
      exact ih (fun y hy => h1 y (List.mem_cons_of_mem x hy))
        (fun y hy => h2 y (List.mem_cons_of_mem x hy))

theorem filter_val_eq_of_ne (l : List Card) (s v : String) (hne : s ≠ v) :
    (l.filter (fun d => decide (d.value ≠ v))).filter
        (fun d => decide (d.value = s)) =
      l.filter (fun d => decide (d.value = s)) := by
  rw [List.filter_filter]
  apply List.filter_congr
  intro x _
  by_cases hx : x.value = s
  · simp [hx, hne]
  · simp [hx]

/-- The specification's hint-pair description, written from its words:
among the given (face-down unmatched) cards, scan in list order — for a
session's deck this is ascending card id, so the first card whose
symbol has at least two members marks that symbol's first occurrence —
and return the first two ids of that symbol's members (its two
lowest-id members, the list being id-sorted). -/
def specHintPair (l : List Card) : Option (Nat × Nat) :=
  match l.find? (fun c =>
      decide (2 ≤ l.countP (fun d => decide (d.value = c.value)))) with
  | none => none
  | some c =>
    match (l.filter (fun d => decide (d.value = c.value))).map Card.id with
    | a :: b :: _ => some (a, b)
    | _ => none

/-- Dropping a head card whose symbol has no second occurrence does not
change the spec's hint pair. -/
theorem specHintPair_cons_skip (c : Card) (rest : List Card)
    (h0 : rest.countP (fun d => decide (d.value = c.value)) = 0) :
    specHintPair (c :: rest) =
      specHintPair (rest.filter (fun d => decide (d.value ≠ c.value))) := by
  unfold specHintPair
  rw [List.find?_cons_of_neg _ (by simp [List.countP_cons, h0])]
  rw [find?_filter_congr rest (fun d => decide (d.value ≠ c.value))
    (fun x => decide (2 ≤ (c :: rest).countP (fun d => decide (d.value = x.value))))
    (fun x => decide (2 ≤ (rest.filter (fun d => decide (d.value ≠ c.value))).countP
      (fun d => decide (d.value = x.value))))
    ?hA ?hB]
  case hA =>
    intro x _ hx
    simp only [decide_eq_false_iff_not, not_not] at hx
    simp only [decide_eq_false_iff_not, not_le]
    have : (c :: rest).countP (fun d => decide (d.value = x.value)) =
        (c :: rest).countP (fun d => decide (d.value = c.value)) := by
      rw [hx]
    rw [this, List.countP_cons, h0]
    simp
  case hB =>
    intro x _ hx
    simp only [decide_eq_true_eq] at hx
    have h1 : (c :: rest).countP (fun d => decide (d.value = x.value)) =
        rest.countP (fun d => decide (d.value = x.value)) := by
      have hcx : ¬ c.value = x.value := fun he => hx he.symm
      rw [List.countP_cons]
      simp [hcx]
    have h2 : (rest.filter (fun d => decide (d.value ≠ c.value))).countP
        (fun d => decide (d.value = x.value)) =
        rest.countP (fun d => decide (d.value = x.value)) := by
      rw [List.countP_eq_length_filter, filter_val_eq_of_ne rest x.value c.value hx,
        ← List.countP_eq_length_filter]
    simp only [h1, h2]
  cases hf : (rest.filter (fun d => decide (d.value ≠ c.value))).find?
      (fun x => decide (2 ≤ (rest.filter (fun d => decide (d.value ≠ c.value))).countP
        (fun d => decide (d.value = x.value)))) with
  | none => rfl
  | some x =>
    have hxmem := List.mem_of_find?_eq_some hf
    have hxne : x.value ≠ c.value := by
      have h := (List.mem_filter.mp hxmem).2
      simpa using h
    have hcx : ¬ c.value = x.value := fun he => hxne he.symm
    have hfeq : (c :: rest).filter (fun d => decide (d.value = x.value)) =
        (rest.filter (fun d => decide (d.value ≠ c.value))).filter
          (fun d => decide (d.value = x.value)) := by
      rw [List.filter_cons_of_neg (by simp [hcx]),
        filter_val_eq_of_ne rest x.value c.value hxne]
    simp only []
    rw [hfeq]

/-- The code's group-then-scan hint pair equals the specification's
first-qualifying-symbol description (length-bounded induction). -/
theorem hintPairOf_eq_aux : ∀ (n : Nat) (l : List Card), l.length ≤ n →
    hintPairOf l = (specHintPair l).map (fun p => [p.1, p.2]) := by
  intro n
  induction n with
  | zero =>
    intro l hl
    have hnil : l = [] := List.eq_nil_of_length_eq_zero (Nat.le_zero.mp hl)
    subst hnil
    rfl
  | succ n ih =>
    intro l hl
    cases l with
    | nil => rfl
    | cons c rest =>
      unfold hintPairOf
      rw [groupByValue_eq_groupsOf]
      rw [show groupsOf (c :: rest) = (c.value, c.id :: idsOf rest c.value) ::
          groupsOf (rest.filter (fun d => decide (d.value ≠ c.value))) from by
        simp [groupsOf]]
      have hlen : (idsOf rest c.value).length =
          rest.countP (fun d => decide (d.value = c.value)) := by
        simp [idsOf, List.countP_eq_length_filter]
      by_cases hc : 1 ≤ rest.countP (fun d => decide (d.value = c.value))
      · have hpos : (2 : Nat) ≤ ((c.id :: idsOf rest c.value) : List Nat).length := by
          rw [List.length_cons, hlen]
          omega
        rw [List.find?_cons_of_pos _ (by simpa using hpos)]
        cases hid : idsOf rest c.value with
        | nil => rw [hid] at hlen; simp at hlen; omega
        | cons i tl =>
          unfold specHintPair
          have hcp : 2 ≤ (c :: rest).countP (fun d => decide (d.value = c.value)) := by
            rw [List.countP_cons]
            have hone : (if decide (c.value = c.value) then 1 else 0) = 1 := by simp
            rw [hone]
            omega
          rw [List.find?_cons_of_pos _ (by simpa using hcp)]
          simp only []
          rw [List.filter_cons_of_pos (by simp)]
          simp only [List.map_cons]
          have hmap : (rest.filter (fun d => decide (d.value = c.value))).map
              Card.id = i :: tl := by
            unfold idsOf at hid
            exact hid
          rw [hmap]
          rfl
      · have h0 : rest.countP (fun d => decide (d.value = c.value)) = 0 := by omega
        rw [List.find?_cons_of_neg _ (by simp [hlen, h0])]
        have hrw : ((groupsOf (rest.filter (fun d => decide (d.value ≠ c.value)))).find?
            (fun g => decide (2 ≤ g.2.length))).map (fun g => g.2.take 2) =
            hintPairOf (rest.filter (fun d => decide (d.value ≠ c.value))) := by
          unfold hintPairOf
          rw [groupByValue_eq_groupsOf]
        rw [hrw]
        rw [ih _ (le_trans (List.length_filter_le _ _) (Nat.le_of_succ_le_succ hl))]
        rw [specHintPair_cons_skip c rest h0]

/-- The hint pair the code computes (group by symbol in insertion order,
first group with two members, first two ids) is exactly the
specification's pair. -/
theorem hintPairOf_eq_specHintPair (l : List Card) :
    hintPairOf l = (specHintPair l).map (fun p => [p.1, p.2]) :=
  hintPairOf_eq_aux l.length l (Nat.le_refl _)

/-- Structural facts about the spec's hint pair on an id-sorted card
list: the two ids name two face-down unmatched cards of one symbol and
are that symbol's two lowest ids. -/
theorem specHintPair_props (l : List Card)
    (hsort : l.Pairwise (fun a b => a.id < b.id)) (a b : Nat)
    (hspec : specHintPair l = some (a, b)) :
    ∃ ca cb : Card, ca ∈ l ∧ cb ∈ l ∧ ca.id = a ∧ cb.id = b ∧
      ca.value = cb.value ∧ a < b ∧
      (∀ c ∈ l, c.value = ca.value → c.id = a ∨ b ≤ c.id) := by
  unfold specHintPair at hspec
  cases hf : l.find? (fun c =>
      decide (2 ≤ l.countP (fun d => decide (d.value = c.value)))) with
  | none => rw [hf] at hspec; simp at hspec
  | some c =>
    rw [hf] at hspec
    simp only [] at hspec
    cases hm0 : l.filter (fun d => decide (d.value = c.value)) with
    | nil => rw [hm0] at hspec; simp at hspec
    | cons ca m1 =>
      cases m1 with
      | nil => rw [hm0] at hspec; simp at hspec
      | cons cb m2 =>
        rw [hm0] at hspec
        simp only [List.map_cons] at hspec
        have hab : ca.id = a ∧ cb.id = b := by
          have := Option.some.inj hspec
          exact ⟨congrArg Prod.fst this, congrArg Prod.snd this⟩
        have hcam : ca ∈ l.filter (fun d => decide (d.value = c.value)) := by
          rw [hm0]; exact List.mem_cons_self _ _
        have hcbm : cb ∈ l.filter (fun d => decide (d.value = c.value)) := by
          rw [hm0]; exact List.mem_cons_of_mem _ (List.mem_cons_self _ _)
        have hcal : ca ∈ l := (List.mem_filter.mp hcam).1
        have hcbl : cb ∈ l := (List.mem_filter.mp hcbm).1
        have hcav : ca.value = c.value := by
          have := (List.mem_filter.mp hcam).2; simpa using this
        have hcbv : cb.value = c.value := by
          have := (List.mem_filter.mp hcbm).2; simpa using this
        have hp : (l.filter (fun d => decide (d.value = c.value))).Pairwise
            (fun a b => a.id < b.id) := hsort.filter _
        rw [hm0] at hp
        rw [List.pairwise_cons] at hp
        have hp2 := hp.2
        rw [List.pairwise_cons] at hp2
        refine ⟨ca, cb, hcal, hcbl, hab.1, hab.2, hcav.trans hcbv.symm, ?_, ?_⟩
        · rw [← hab.1, ← hab.2]
          exact hp.1 cb (List.mem_cons_self _ _)
        · intro x hx hxv
          have hxm : x ∈ l.filter (fun d => decide (d.value = c.value)) := by
            rw [List.mem_filter]
            exact ⟨hx, by simp [hxv, hcav]⟩
          rw [hm0] at hxm
          rcases List.mem_cons.mp hxm with hxca | hxm1
          · subst hxca; exact Or.inl hab.1
          · rcases List.mem_cons.mp hxm1 with hxcb | hxm2
            · subst hxcb; exact Or.inr (Nat.le_of_eq hab.2.symm)
            · exact Or.inr (hab.2 ▸ Nat.le_of_lt (hp2.1 x hxm2))

/-- Claim C8.  `requestHint`: (1) with no hints left the call is a
no-op — combined with (2)'s decrement of exactly 1 per success, after 3
successful calls every further call is a no-op; (2) on a successful
call the engine emits exactly the specification's pair — the two
lowest-id face-down unmatched cards of the first symbol (by ascending
id of its first occurrence) having at least two such members —
decrements `hints` by exactly 1 and mutates no card state; (3) the
spec pair is always two cards of one symbol (never two different
symbols), its two lowest-id members.  The id-sortedness hypothesis
holds for every session deck, whose card ids are the array indices. -/
theorem hint_meets_spec (w : World)
    (hsort : w.gameState.cards.Pairwise (fun a b => a.id < b.id)) :
    (w.gameState.hints = 0 → hint w = w) ∧
    (∀ a b : Nat,
      w.gameState.hints ≠ 0 → w.gameState.gameActive = true →
      2 ≤ (w.gameState.cards.filter (fun c => !c.matched && !c.flipped)).length →
      specHintPair (w.gameState.cards.filter
        (fun c => !c.matched && !c.flipped)) = some (a, b) →
      hint w = { w with
        events := w.events ++ [Event.hintShown a b],
        gameState := { w.gameState with hints := w.gameState.hints - 1 } }) ∧
    (∀ a b : Nat,
      specHintPair (w.gameState.cards.filter
        (fun c => !c.matched && !c.flipped)) = some (a, b) →
      ∃ ca cb : Card,
        ca ∈ w.gameState.cards.filter (fun c => !c.matched && !c.flipped) ∧
        cb ∈ w.gameState.cards.filter (fun c => !c.matched && !c.flipped) ∧
        ca.id = a ∧ cb.id = b ∧ ca.value = cb.value ∧ a < b ∧
        (∀ c ∈ w.gameState.cards.filter (fun c => !c.matched && !c.flipped),
          c.value = ca.value → c.id = a ∨ b ≤ c.id)) := by
  refine ⟨?_, ?_, ?_⟩
  · intro h0
    simp [hint, h0]
  · intro a b h1 h2 h3 hspec
    have hpair : hintPairOf (w.gameState.cards.filter
        (fun c => !c.matched && !c.flipped)) = some [a, b] := by
      rw [hintPairOf_eq_specHintPair, hspec]
      rfl
    simp [hint, h1, h2, Nat.not_lt.mpr h3, hpair]
  · intro a b hspec
    exact specHintPair_props _ (hsort.filter _) a b hspec

/-- A small session state for exercising the hint path: two face-down
pairs. -/
def gsHintDemo : GameState :=
  { cards := [⟨0, "🌸", false, false⟩, ⟨1, "🌺", false, false⟩,
      ⟨2, "🌸", false, false⟩, ⟨3, "🌺", false, false⟩],
    flippedCards := [], matchedPairs := 0, moveCount := 0, gameActive := true,
    timer := 0, timerInterval := some 1, currentDifficulty := "easy",
    hints := 3 }

/-- The world around `gsHintDemo`. -/
def wHintDemo : World :=
  { gameState := gsHintDemo,
    gen := 1, pending := [], intervals := [1], nextIntervalId := 2,
    events := [] }

/-- Witness: the hint theorem applied to the small demo session. -/
theorem hint_meets_spec_witness :
    wHintDemo.gameState.cards.Pairwise (fun a b => a.id < b.id) ∧
    ((wHintDemo.gameState.hints = 0 → hint wHintDemo = wHintDemo) ∧
     (∀ a b : Nat,
       wHintDemo.gameState.hints ≠ 0 → wHintDemo.gameState.gameActive = true →
       2 ≤ (wHintDemo.gameState.cards.filter
         (fun c => !c.matched && !c.flipped)).length →
       specHintPair (wHintDemo.gameState.cards.filter
         (fun c => !c.matched && !c.flipped)) = some (a, b) →
       hint wHintDemo = { wHintDemo with
         events := wHintDemo.events ++ [Event.hintShown a b],
         gameState := { wHintDemo.gameState with
           hints := wHintDemo.gameState.hints - 1 } }) ∧
     (∀ a b : Nat,
       specHintPair (wHintDemo.gameState.cards.filter
         (fun c => !c.matched && !c.flipped)) = some (a, b) →
       ∃ ca cb : Card,
         ca ∈ wHintDemo.gameState.cards.filter (fun c => !c.matched && !c.flipped) ∧
         cb ∈ wHintDemo.gameState.cards.filter (fun c => !c.matched && !c.flipped) ∧
         ca.id = a ∧ cb.id = b ∧ ca.value = cb.value ∧ a < b ∧
         (∀ c ∈ wHintDemo.gameState.cards.filter (fun c => !c.matched && !c.flipped),
           c.value = ca.value → c.id = a ∨ b ≤ c.id))) :=
  ⟨by decide, hint_meets_spec wHintDemo (by decide)⟩

/-- A session with a mismatch pending flip-back where the only two
face-down cards carry different symbols: cards 0 and 1 are face-up
awaiting the flip-back, and the partners 2 and 3 are face-down. -/
def gsNoPair : GameState :=
  { cards := [⟨0, "🌸", true, false⟩, ⟨1, "🌺", true, false⟩,
      ⟨2, "🌸", false, false⟩, ⟨3, "🌺", false, false⟩],
    flippedCards := [0, 1], matchedPairs := 0, moveCount := 1,
    gameActive := true, timer := 0, timerInterval := some 1,
    currentDifficulty := "easy", hints := 3 }

/-- The world around `gsNoPair`, with the mismatch flip-back pending. -/
def wNoPair : World :=
  { gameState := gsNoPair,
    gen := 1, pending := [Pending.flipBack 1 0 1], intervals := [1],
    nextIntervalId := 2, events := [] }

/-- Claim C10.  When the session is active with hints remaining and at
least two face-down unmatched cards, but no symbol has two face-down
unmatched members, `hint` finds no pair: it emits nothing and leaves
`hintsRemaining` (and everything else) unchanged — the decrement
happens only when a same-symbol pair is actually found. -/
theorem hint_no_pair_is_noop (w : World)
    (h1 : w.gameState.hints ≠ 0)
    (h2 : w.gameState.gameActive = true)
    (h3 : 2 ≤ (w.gameState.cards.filter (fun c => !c.matched && !c.flipped)).length)
    (h4 : ∀ c ∈ w.gameState.cards.filter (fun c => !c.matched && !c.flipped),
      (w.gameState.cards.filter (fun c => !c.matched && !c.flipped)).countP
        (fun d => decide (d.value = c.value)) ≤ 1) :
    hint w = w := by
  have hspec : specHintPair (w.gameState.cards.filter
      (fun c => !c.matched && !c.flipped)) = none := by
    unfold specHintPair
    rw [show (w.gameState.cards.filter (fun c => !c.matched && !c.flipped)).find?
        (fun c => decide (2 ≤ (w.gameState.cards.filter
          (fun c => !c.matched && !c.flipped)).countP
            (fun d => decide (d.value = c.value)))) = none from
      List.find?_eq_none.mpr (fun x hx => by
        simp only [decide_eq_true_eq, not_le]
        exact Nat.lt_succ_of_le (h4 x hx))]
  have hpair : hintPairOf (w.gameState.cards.filter
      (fun c => !c.matched && !c.flipped)) = none := by
    rw [hintPairOf_eq_specHintPair, hspec]
    rfl
  simp [hint, h1, h2, Nat.not_lt.mpr h3, hpair]

/-- Witness: the no-pair theorem applied to the pending-mismatch
session. -/
theorem hint_no_pair_is_noop_witness :
    wNoPair.gameState.hints ≠ 0 ∧
    wNoPair.gameState.gameActive = true ∧
    2 ≤ (wNoPair.gameState.cards.filter (fun c => !c.matched && !c.flipped)).length ∧
    (∀ c ∈ wNoPair.gameState.cards.filter (fun c => !c.matched && !c.flipped),
      (wNoPair.gameState.cards.filter (fun c => !c.matched && !c.flipped)).countP
        (fun d => decide (d.value = c.value)) ≤ 1) ∧
    hint wNoPair = wNoPair :=
  ⟨by decide, rfl, by decide, by decide,
    hint_no_pair_is_noop wNoPair (by decide) rfl (by decide) (by decide)⟩
